import Mathlib

/-!
Verification of the contact-form submission gate of `src/main.py`:
the honeypot check, the per-client sliding-window rate limiter
(`is_rate_limited`), and the HTTP handler `submit_contact`.

Timestamps (Python `time.time()`) are modelled as integers; the rate-window
state `request_times` (a `defaultdict(list)`) is modelled as a total function
from client identifiers to lists of timestamps, with the empty list as the
default value.
-/

namespace ContactGate

/-- The rate-window state: `request_times`, a mapping from client identifier
to the list of stored submission timestamps (default: empty list). -/
abbrev RateWindow := String → List Int

/-- The initial, empty `request_times` mapping. -/
def emptyWindow : RateWindow := fun _ => []

/-- Store a timestamp list under one key, leaving all other keys unchanged
(the effect of `request_times[client_ip] = ...`). -/
def setTimes (w : RateWindow) (k : String) (v : List Int) : RateWindow :=
  fun k2 => if k2 = k then v else w k2

/-- The `ContactSubmission` input schema: `name`, `email`, optional
`subject`, `message`, optional honeypot field `hp`. -/
structure ContactSubmission where
  name : String
  email : String
  subject : Option String
  message : String
  hp : Option String

/-- The validated `Contact` record: a `ContactSubmission` minus `hp`. -/
structure Contact where
  name : String
  email : String
  subject : Option String
  message : String
deriving DecidableEq

/-- Build the `Contact` record via `model_dump(exclude={"hp"})`: drop the
honeypot field. -/
def toContact (p : ContactSubmission) : Contact :=
  { name := p.name, email := p.email, subject := p.subject,
    message := p.message }

/-- Model of Python `str.strip()`: remove leading and trailing whitespace. -/
def strip (s : String) : String :=
  String.mk
    ((((s.data.dropWhile Char.isWhitespace).reverse).dropWhile
        Char.isWhitespace).reverse)

/-- The condition `payload.hp and payload.hp.strip()` of `submit_contact`:
`hp` is truthy (present and a non-empty string) and stripping
leading/trailing whitespace leaves a non-empty string. -/
def honeypotTriggered (hp : Option String) : Bool :=
  match hp with
  | none => false
  | some s => decide (s ≠ "") && decide (strip s ≠ "")

/-- The function `is_rate_limited(client_ip)` from `src/main.py`, with the ambient
mutable state made explicit: takes the configured `RATE_LIMIT_PER_MIN`,
the current `request_times` mapping and `now`, and returns the boolean
result together with the updated mapping.

```
now = time()
window_start = now - 60
times = request_times[client_ip]
request_times[client_ip] = [t for t in times if t >= window_start]
if len(request_times[client_ip]) >= RATE_LIMIT_PER_MIN:
    return True
request_times[client_ip].append(now)
return False
``` -/
def is_rate_limited (RATE_LIMIT_PER_MIN : Int) (w : RateWindow)
    (client_ip : String) (now : Int) : Bool × RateWindow :=
  let window_start := now - 60
  let times := w client_ip
  let pruned := times.filter (fun t => decide (window_start ≤ t))
  if RATE_LIMIT_PER_MIN ≤ (pruned.length : Int) then
    (true, setTimes w client_ip pruned)
  else
    (false, setTimes w client_ip (pruned ++ [now]))

/-- The three gate outcomes. -/
inductive Outcome
  | Accepted
  | Dropped
  | RateLimited
deriving DecidableEq

/-- The submission gate `evaluate(submission, client_id, now)`: the
honeypot check followed by the rate-limit check, exactly as the two
gate steps appear in `submit_contact` of `src/main.py`. Returns the
outcome and the updated rate-window state. -/
def evaluate (RATE_LIMIT_PER_MIN : Int) (payload : ContactSubmission)
    (client_id : String) (now : Int) (w : RateWindow) :
    Outcome × RateWindow :=
  if honeypotTriggered payload.hp then
    (Outcome.Dropped, w)
  else
    let r := is_rate_limited RATE_LIMIT_PER_MIN w client_id now
    if r.1 then (Outcome.RateLimited, r.2)
    else (Outcome.Accepted, r.2)

/-- A JSON scalar appearing in a response body. -/
inductive JVal
  | jbool : Bool → JVal
  | jstr : String → JVal
deriving DecidableEq

/-- An HTTP response: status code and a JSON-object body, modelled as a
list of key/value pairs. -/
structure HttpResponse where
  status : Nat
  body : List (String × JVal)
deriving DecidableEq

/-- The full observable result of one `submit_contact` call: the HTTP
response, the rate-window state afterwards, the record passed to
`create_document` when storage succeeded, and the record passed to
`send_email_notification` when it was invoked. -/
structure HandlerResult where
  response : HttpResponse
  window : RateWindow
  persisted : Option Contact
  emailed : Option Contact

/-- The `POST /api/contact` handler `submit_contact` of `src/main.py`,
with the persistence collaborator `create_document` passed in as a
function returning either the new document id or a storage error:

* honeypot filled → `{"ok": True}` and no state change, no persistence,
  no email;
* rate limited → HTTP 200 with `{"ok": False, "reason": "rate_limited"}`;
* accepted and stored → HTTP 200 with `{"ok": True, "id": contact_id}`,
  then the fire-and-forget email notification;
* accepted but storage raises → HTTP 500 with the error detail. -/
def submit_contact (RATE_LIMIT_PER_MIN : Int)
    (create_document : Contact → Except String String)
    (payload : ContactSubmission) (client_ip : String) (now : Int)
    (w : RateWindow) : HandlerResult :=
  if honeypotTriggered payload.hp then
    let resp : HttpResponse := { status := 200, body := [("ok", JVal.jbool true)] }
    { response := resp, window := w, persisted := none, emailed := none }
  else
    let r := is_rate_limited RATE_LIMIT_PER_MIN w client_ip now
    if r.1 then
      let body := [("ok", JVal.jbool false), ("reason", JVal.jstr "rate_limited")]
      let resp : HttpResponse := { status := 200, body := body }
      { response := resp, window := r.2, persisted := none, emailed := none }
    else
      let contact := toContact payload
      match create_document contact with
      | Except.ok contact_id =>
        let body := [("ok", JVal.jbool true), ("id", JVal.jstr contact_id)]
        let resp : HttpResponse := { status := 200, body := body }
        { response := resp, window := r.2, persisted := some contact,
          emailed := some contact }
      | Except.error e =>
        let resp : HttpResponse := { status := 500, body := [("detail", JVal.jstr e)] }
        { response := resp, window := r.2, persisted := none, emailed := none }

/-- A legitimate submission: honeypot field absent. -/
def emptySub : ContactSubmission :=
  { name := "", email := "", subject := none, message := "", hp := none }

/-- Run the gate once per timestamp in a list, for a fixed client with
honeypot-empty submissions, threading the rate-window state and
collecting the outcomes in order. -/
def runGate (RATE_LIMIT_PER_MIN : Int) (cid : String) :
    List Int → RateWindow → List Outcome × RateWindow
  | [], w => ([], w)
  | t :: ts, w =>
    let r := evaluate RATE_LIMIT_PER_MIN emptySub cid t w
    let rest := runGate RATE_LIMIT_PER_MIN cid ts r.2
    (r.1 :: rest.1, rest.2)

/-- The rate-limit step exactly as §4.1 Step 2 of the specification words
it: compute `window_start = now - 60`, discard every stored timestamp
`t` with `t < window_start`, store the pruned sequence back; if the
length of the pruned sequence is ≥ `RATE_LIMIT_PER_MIN` the outcome is
`RateLimited` and `now` is not appended, otherwise `now` is appended,
stored back, and the outcome is `Accepted`. -/
def evaluateSpecStep2 (RATE_LIMIT_PER_MIN : Int) (client_id : String)
    (now : Int) (w : RateWindow) : Outcome × RateWindow :=
  let window_start := now - 60
  let stored := w client_id
  let pruned := stored.filter (fun t => !decide (t < window_start))
  if RATE_LIMIT_PER_MIN ≤ (pruned.length : Int) then
    (Outcome.RateLimited, setTimes w client_id pruned)
  else
    (Outcome.Accepted, setTimes w client_id (pruned ++ [now]))

/-- The concrete spam submission from the spec: `hp="spammer-filled-this"`. -/
def hpSub : ContactSubmission :=
  { name := "", email := "", subject := none, message := "",
    hp := some "spammer-filled-this" }

/-- The list-comprehension prune `[t for t in times if t >= window_start]`
with `window_start = now - 60`, as a named operation for the lemmas below. -/
def prune (now : Int) (l : List Int) : List Int :=
  l.filter (fun t => decide (now - 60 ≤ t))

theorem setTimes_same (w : RateWindow) (k : String) (v : List Int) :
    setTimes w k v k = v := by
  simp [setTimes]

theorem setTimes_other (w : RateWindow) (k k2 : String) (v : List Int)
    (h : k2 ≠ k) : setTimes w k v k2 = w k2 := by
  simp [setTimes, h]

theorem setTimes_setTimes (w : RateWindow) (k : String) (v v2 : List Int) :
    setTimes (setTimes w k v) k v2 = setTimes w k v2 := by
  funext k2
  by_cases h : k2 = k <;> simp [setTimes, h]

theorem prune_eq_self (now : Int) (l : List Int)
    (h : ∀ t ∈ l, now - 60 ≤ t) : prune now l = l := by
  unfold prune
  rw [List.filter_eq_self]
  intro a ha
  exact decide_eq_true (h a ha)

theorem prune_eq_nil (now : Int) (l : List Int)
    (h : ∀ t ∈ l, t + 60 < now) : prune now l = [] := by
  unfold prune
  rw [List.filter_eq_nil_iff]
  intro a ha
  simp only [decide_eq_true_eq]
  have := h a ha
  omega

theorem is_rate_limited_eq (L : Int) (w : RateWindow) (cid : String)
    (now : Int) :
    is_rate_limited L w cid now =
      if L ≤ ((prune now (w cid)).length : Int) then
        (true, setTimes w cid (prune now (w cid)))
      else
        (false, setTimes w cid (prune now (w cid) ++ [now])) := rfl

theorem evaluate_limited_eq (L : Int) (p : ContactSubmission) (cid : String)
    (now : Int) (w : RateWindow) (hhp : honeypotTriggered p.hp = false)
    (hlen : L ≤ ((prune now (w cid)).length : Int)) :
    evaluate L p cid now w =
      (Outcome.RateLimited, setTimes w cid (prune now (w cid))) := by
  simp [evaluate, is_rate_limited_eq, hhp, hlen]

theorem evaluate_accepted_eq (L : Int) (p : ContactSubmission) (cid : String)
    (now : Int) (w : RateWindow) (hhp : honeypotTriggered p.hp = false)
    (hlen : ¬ L ≤ ((prune now (w cid)).length : Int)) :
    evaluate L p cid now w =
      (Outcome.Accepted, setTimes w cid (prune now (w cid) ++ [now])) := by
  simp [evaluate, is_rate_limited_eq, hhp, hlen]

theorem emptySub_hp : honeypotTriggered emptySub.hp = false := rfl

theorem runGate_append (L : Int) (cid : String) (l1 l2 : List Int)
    (w : RateWindow) :
    runGate L cid (l1 ++ l2) w =
      ((runGate L cid l1 w).1 ++
         (runGate L cid l2 (runGate L cid l1 w).2).1,
       (runGate L cid l2 (runGate L cid l1 w).2).2) := by
  induction l1 generalizing w with
  | nil => simp [runGate]
  | cons t ts ih => simp [runGate, ih]

theorem runGate_all_accepted (L : Int) (cid : String) :
    ∀ (ts pre : List Int) (w : RateWindow),
      w cid = pre →
      ((pre.length : Int) + (ts.length : Int) ≤ L) →
      (∀ t ∈ ts, ∀ x ∈ pre ++ ts, t - 60 ≤ x) →
      (runGate L cid ts w).1 =
          List.replicate ts.length Outcome.Accepted ∧
        (runGate L cid ts w).2 cid = pre ++ ts
  | [], pre, w, hw, _, _ => by simp [runGate, hw]
  | t :: ts, pre, w, hw, hlen, hwin => by
    have hmemt : t ∈ t :: ts := List.mem_cons_self t ts
    have hprune : prune t (w cid) = pre := by
      rw [hw]
      exact prune_eq_self t pre fun x hx =>
        hwin t hmemt x (List.mem_append_left _ hx)
    have hnotfull : ¬ L ≤ ((prune t (w cid)).length : Int) := by
      rw [hprune]
      simp only [List.length_cons] at hlen
      push_cast at hlen ⊢
      omega
    have heval := evaluate_accepted_eq L emptySub cid t w emptySub_hp hnotfull
    have hstep : runGate L cid (t :: ts) w =
        ((evaluate L emptySub cid t w).1 ::
           (runGate L cid ts (evaluate L emptySub cid t w).2).1,
         (runGate L cid ts (evaluate L emptySub cid t w).2).2) := rfl
    rw [hstep, heval]
    have hw2 : setTimes w cid (prune t (w cid) ++ [t]) cid = pre ++ [t] := by
      rw [setTimes_same, hprune]
    have hlen2 : (((pre ++ [t]).length : Int) + (ts.length : Int) ≤ L) := by
      simp only [List.length_append, List.length_singleton, List.length_nil,
        List.length_cons] at hlen ⊢
      push_cast at hlen ⊢
      omega
    have hwin2 : ∀ t2 ∈ ts, ∀ x ∈ (pre ++ [t]) ++ ts, t2 - 60 ≤ x := by
      intro t2 ht2 x hx
      refine hwin t2 (List.mem_cons_of_mem t ht2) x ?_
      simp only [List.mem_append, List.mem_cons, List.mem_singleton] at hx ⊢
      tauto
    have ih := runGate_all_accepted L cid ts (pre ++ [t])
      (setTimes w cid (prune t (w cid) ++ [t])) hw2 hlen2 hwin2
    refine ⟨?_, ?_⟩
    · simp only [List.length_cons, List.replicate_succ]
      exact congrArg (Outcome.Accepted :: ·) ih.1
    · rw [ih.2, List.append_assoc, List.singleton_append]

/-- Claim C1: for every submission that passes the honeypot check,
`evaluate` performs exactly the specified rate-limit steps — prune the
stored timestamps below `now - 60` and store the pruned sequence back
regardless of the outcome; if the pruned length reaches
`RATE_LIMIT_PER_MIN` the outcome is `RateLimited` with `now` not
appended, otherwise `now` is appended and the outcome is `Accepted` —
i.e. it agrees with `evaluateSpecStep2`, the step list transcribed from
the specification. -/
theorem gate_matches_spec_step2 (L : Int) (p : ContactSubmission)
    (cid : String) (now : Int) (w : RateWindow)
    (hhp : honeypotTriggered p.hp = false) :
    evaluate L p cid now w = evaluateSpecStep2 L cid now w := by
  have hfilter : (w cid).filter (fun t => !decide (t < now - 60)) =
      prune now (w cid) := by
    unfold prune
    apply List.filter_congr
    intro a _
    rw [← decide_not]
    exact decide_eq_decide.mpr Int.not_lt
  by_cases hlen : L ≤ ((prune now (w cid)).length : Int)
  · rw [evaluate_limited_eq L p cid now w hhp hlen]
    simp only [evaluateSpecStep2, hfilter]
    rw [if_pos hlen]
  · rw [evaluate_accepted_eq L p cid now w hhp hlen]
    simp only [evaluateSpecStep2, hfilter]
    rw [if_neg hlen]

/-- Witness for C1 at a concrete honeypot-free input. -/
theorem gate_matches_spec_step2_witness :
    evaluate 10 emptySub "1.2.3.4" 0 emptyWindow =
      evaluateSpecStep2 10 "1.2.3.4" 0 emptyWindow :=
  gate_matches_spec_step2 10 emptySub "1.2.3.4" 0 emptyWindow rfl

/-- Claim C3: a submission whose `hp` is present and non-empty after
trimming is `Dropped`; the rate-window state is completely unchanged
(no prune, no append, for any client), and the submission is neither
persisted nor emailed. -/
theorem honeypot_drops (L : Int) (cr : Contact → Except String String)
    (p : ContactSubmission) (cid : String) (now : Int) (w : RateWindow)
    (s : String) (hs : p.hp = some s) (hne : strip s ≠ "") :
    (evaluate L p cid now w).1 = Outcome.Dropped ∧
    (evaluate L p cid now w).2 = w ∧
    (submit_contact L cr p cid now w).response =
      { status := 200, body := [("ok", JVal.jbool true)] } ∧
    (submit_contact L cr p cid now w).window = w ∧
    (submit_contact L cr p cid now w).persisted = none ∧
    (submit_contact L cr p cid now w).emailed = none := by
  have hsne : s ≠ "" := by
    intro h
    rw [h] at hne
    exact hne (by decide)
  have hhp : honeypotTriggered p.hp = true := by
    rw [hs]
    simp [honeypotTriggered, hsne, hne]
  refine ⟨?_, ?_, ?_, ?_, ?_, ?_⟩ <;>
    simp [evaluate, submit_contact, hhp]

/-- Witness for C3: the concrete spam submission from the spec is dropped with
no side effects. -/
theorem honeypot_drops_witness :
    (evaluate 10 hpSub "9.9.9.9" 5 emptyWindow).1 = Outcome.Dropped ∧
    (evaluate 10 hpSub "9.9.9.9" 5 emptyWindow).2 = emptyWindow ∧
    (submit_contact 10 (fun _ => Except.ok "id1") hpSub "9.9.9.9" 5
        emptyWindow).response =
      { status := 200, body := [("ok", JVal.jbool true)] } ∧
    (submit_contact 10 (fun _ => Except.ok "id1") hpSub "9.9.9.9" 5
        emptyWindow).window = emptyWindow ∧
    (submit_contact 10 (fun _ => Except.ok "id1") hpSub "9.9.9.9" 5
        emptyWindow).persisted = none ∧
    (submit_contact 10 (fun _ => Except.ok "id1") hpSub "9.9.9.9" 5
        emptyWindow).emailed = none :=
  honeypot_drops 10 (fun _ => Except.ok "id1") hpSub "9.9.9.9" 5 emptyWindow
    "spammer-filled-this" rfl (by decide)

/-- Claim C9: the gate is total — every evaluation yields one of the three
outcomes — and an absent, empty, or whitespace-only (empty after trim)
honeypot value is treated as not triggered. -/
theorem gate_total :
    (∀ (L : Int) (p : ContactSubmission) (cid : String) (now : Int)
        (w : RateWindow),
      (evaluate L p cid now w).1 = Outcome.Accepted ∨
      (evaluate L p cid now w).1 = Outcome.Dropped ∨
      (evaluate L p cid now w).1 = Outcome.RateLimited) ∧
    honeypotTriggered none = false ∧
    honeypotTriggered (some "") = false ∧
    (∀ s : String, strip s = "" → honeypotTriggered (some s) = false) := by
  refine ⟨?_, rfl, by decide, ?_⟩
  · intro L p cid now w
    cases h : (evaluate L p cid now w).1 <;> simp
  · intro s hs
    simp [honeypotTriggered, hs]

/-- Witness for C9 at concrete inputs, including a whitespace-only
honeypot value. -/
theorem gate_total_witness :
    ((evaluate 10 emptySub "a" 0 emptyWindow).1 = Outcome.Accepted ∨
     (evaluate 10 emptySub "a" 0 emptyWindow).1 = Outcome.Dropped ∨
     (evaluate 10 emptySub "a" 0 emptyWindow).1 = Outcome.RateLimited) ∧
    honeypotTriggered (some "   ") = false :=
  ⟨gate_total.1 10 emptySub "a" 0 emptyWindow,
   gate_total.2.2.2 "   " (by decide)⟩

/-- Claim C10: with `RATE_LIMIT_PER_MIN` configured non-positive, every
submission that passes the honeypot check is `RateLimited`, for every
client, time, and state. -/
theorem nonpositive_limit_always_limited (L : Int) (hL : L ≤ 0)
    (p : ContactSubmission) (cid : String) (now : Int) (w : RateWindow)
    (hhp : honeypotTriggered p.hp = false) :
    (evaluate L p cid now w).1 = Outcome.RateLimited := by
  have hlen : L ≤ ((prune now (w cid)).length : Int) :=
    le_trans hL (Int.natCast_nonneg _)
  rw [evaluate_limited_eq L p cid now w hhp hlen]

/-- Witness for C10: `RATE_LIMIT_PER_MIN = 0` rejects a fresh client. -/
theorem nonpositive_limit_always_limited_witness :
    (evaluate 0 emptySub "1.2.3.4" 100 emptyWindow).1 =
      Outcome.RateLimited :=
  nonpositive_limit_always_limited 0 (by decide) emptySub "1.2.3.4" 100
    emptyWindow rfl

/-- Claim C2: from empty history, `RATE_LIMIT_PER_MIN + 1` honeypot-free
submissions all within one 60-second window yield `Accepted` for the
first `RATE_LIMIT_PER_MIN` of them and `RateLimited` for the last; and
concretely with `RATE_LIMIT_PER_MIN = 2`, client `"1.2.3.4"` calling at
t = 0, 10, 20, 61 gets `Accepted`, `Accepted`, `RateLimited`,
`Accepted`. -/
theorem burst_hits_limit :
    (∀ (n : ℕ) (cid : String) (ts : List Int) (tf : Int),
      ts.length = n →
      (∀ a ∈ ts ++ [tf], ∀ b ∈ ts ++ [tf], a - 60 ≤ b) →
      (runGate (n : Int) cid (ts ++ [tf]) emptyWindow).1 =
        List.replicate n Outcome.Accepted ++ [Outcome.RateLimited]) ∧
    (runGate 2 "1.2.3.4" [0, 10, 20, 61] emptyWindow).1 =
      [Outcome.Accepted, Outcome.Accepted, Outcome.RateLimited,
       Outcome.Accepted] := by
  constructor
  · intro n cid ts tf hlen hwin
    have hacc := runGate_all_accepted (n : Int) cid ts [] emptyWindow rfl
      (by simp [hlen])
      (fun t ht x hx => hwin t (List.mem_append_left _ ht) x
        (List.mem_append_left _ (by simpa using hx)))
    rw [runGate_append]
    have hw1cid : (runGate (n : Int) cid ts emptyWindow).2 cid = ts := by
      simpa using hacc.2
    have hprune : prune tf ((runGate (n : Int) cid ts emptyWindow).2 cid) =
        ts := by
      rw [hw1cid]
      exact prune_eq_self tf ts fun x hx =>
        hwin tf (List.mem_append_right _ (List.mem_singleton_self tf)) x
          (List.mem_append_left _ hx)
    have hfull : (n : Int) ≤
        ((prune tf ((runGate (n : Int) cid ts emptyWindow).2 cid)).length :
          Int) := by
      rw [hprune, hlen]
    have heval := evaluate_limited_eq (n : Int) emptySub cid tf
      (runGate (n : Int) cid ts emptyWindow).2 emptySub_hp hfull
    have hsingle : ∀ w2 : RateWindow, (runGate (n : Int) cid [tf] w2).1 =
        [(evaluate (n : Int) emptySub cid tf w2).1] := fun w2 => rfl
    rw [hacc.1, hsingle, heval]
    simp [hlen]
  · decide

/-- Witness for the general clause of C2: `RATE_LIMIT_PER_MIN = 2`, three
calls at t = 0, 10, 20 from empty history give two `Accepted` then
`RateLimited`. -/
theorem burst_hits_limit_witness :
    (runGate ((2 : ℕ) : Int) "1.2.3.4" ([0, 10] ++ [20]) emptyWindow).1 =
      List.replicate 2 Outcome.Accepted ++ [Outcome.RateLimited] :=
  burst_hits_limit.1 2 "1.2.3.4" [0, 10] 20 rfl (by decide)

/-- Claim C4: sliding-window recovery — with a full window of exactly
`RATE_LIMIT_PER_MIN` timestamps the evaluation at `now1` is
`RateLimited`; once exactly the oldest timestamp `t0` has left the
trailing 60-second window, the evaluation at `now2` is `Accepted`, and a
further evaluation at `now3` (with nothing more having expired) is
`RateLimited` again: exactly one slot was freed, as with a sliding
window and unlike a fixed bucket reset. -/
theorem sliding_window_recovery (L : Int) (cid : String) (w : RateWindow)
    (t0 : Int) (rest : List Int) (now1 now2 now3 : Int)
    (hw : w cid = t0 :: rest)
    (hfull : ((t0 :: rest).length : Int) = L)
    (h1 : ∀ x ∈ t0 :: rest, now1 - 60 ≤ x)
    (h2old : t0 < now2 - 60)
    (h2rest : ∀ x ∈ rest, now2 - 60 ≤ x)
    (h3rest : ∀ x ∈ rest, now3 - 60 ≤ x)
    (h3new : now3 - 60 ≤ now2) :
    (evaluate L emptySub cid now1 w).1 = Outcome.RateLimited ∧
    (evaluate L emptySub cid now2 (evaluate L emptySub cid now1 w).2).1 =
      Outcome.Accepted ∧
    (evaluate L emptySub cid now3
      (evaluate L emptySub cid now2
        (evaluate L emptySub cid now1 w).2).2).1 =
      Outcome.RateLimited := by
  have hpr1 : prune now1 (w cid) = t0 :: rest := by
    rw [hw]
    exact prune_eq_self now1 (t0 :: rest) h1
  have hlen1 : L ≤ ((prune now1 (w cid)).length : Int) := by
    rw [hpr1, hfull]
  have he1 := evaluate_limited_eq L emptySub cid now1 w emptySub_hp hlen1
  have hs1 : (evaluate L emptySub cid now1 w).2 cid = t0 :: rest := by
    rw [he1, hpr1]
    exact setTimes_same w cid (t0 :: rest)
  have hpr2 : prune now2 ((evaluate L emptySub cid now1 w).2 cid) =
      rest := by
    rw [hs1]
    unfold prune
    rw [List.filter_cons_of_neg (by simpa using not_le.mpr (by omega))]
    exact prune_eq_self now2 rest h2rest
  have hlen2 : ¬ L ≤
      ((prune now2 ((evaluate L emptySub cid now1 w).2 cid)).length :
        Int) := by
    rw [hpr2]
    simp only [List.length_cons] at hfull
    push_cast at hfull ⊢
    omega
  have he2 := evaluate_accepted_eq L emptySub cid now2
    (evaluate L emptySub cid now1 w).2 emptySub_hp hlen2
  have hs2 : (evaluate L emptySub cid now2
      (evaluate L emptySub cid now1 w).2).2 cid = rest ++ [now2] := by
    rw [he2, hpr2]
    exact setTimes_same _ cid (rest ++ [now2])
  have hpr3 : prune now3 ((evaluate L emptySub cid now2
      (evaluate L emptySub cid now1 w).2).2 cid) = rest ++ [now2] := by
    rw [hs2]
    refine prune_eq_self now3 (rest ++ [now2]) fun x hx => ?_
    rcases List.mem_append.mp hx with hx2 | hx2
    · exact h3rest x hx2
    · rw [List.mem_singleton.mp hx2]
      exact h3new
  have hlen3 : L ≤ ((prune now3 ((evaluate L emptySub cid now2
      (evaluate L emptySub cid now1 w).2).2 cid)).length : Int) := by
    rw [hpr3]
    simp only [List.length_cons] at hfull
    simp only [List.length_append, List.length_singleton]
    push_cast at hfull ⊢
    omega
  have he3 := evaluate_limited_eq L emptySub cid now3
    (evaluate L emptySub cid now2
      (evaluate L emptySub cid now1 w).2).2 emptySub_hp hlen3
  exact ⟨by rw [he1], by rw [he2], by rw [he3]⟩

/-- Witness for C4: `RATE_LIMIT_PER_MIN = 2`, window `[0, 10]` for
client `"c"`; the call at t = 20 is rate limited, the call at t = 61
(t = 0 has expired) is accepted, and a second call at t = 61 is rate
limited again. -/
theorem sliding_window_recovery_witness :
    (evaluate 2 emptySub "c" 20 (setTimes emptyWindow "c" [0, 10])).1 =
      Outcome.RateLimited ∧
    (evaluate 2 emptySub "c" 61
      (evaluate 2 emptySub "c" 20
        (setTimes emptyWindow "c" [0, 10])).2).1 = Outcome.Accepted ∧
    (evaluate 2 emptySub "c" 61
      (evaluate 2 emptySub "c" 61
        (evaluate 2 emptySub "c" 20
          (setTimes emptyWindow "c" [0, 10])).2).2).1 =
      Outcome.RateLimited :=
  sliding_window_recovery 2 "c" (setTimes emptyWindow "c" [0, 10]) 0 [10]
    20 61 61 (by decide) (by decide) (by decide) (by decide) (by decide)
    (by decide) (by decide)

/-- Claim C6: client independence — an evaluation for `cid` changes the
stored sequence of no other client, and the outcome and resulting entry
for a client depend only on the entry of that client, so one client
reaching its limit never changes the outcome of another client. -/
theorem client_independence :
    (∀ (L : Int) (p : ContactSubmission) (cid : String) (now : Int)
        (w : RateWindow) (c : String), c ≠ cid →
      (evaluate L p cid now w).2 c = w c) ∧
    (∀ (L : Int) (p : ContactSubmission) (cid : String) (now : Int)
        (w w2 : RateWindow), w cid = w2 cid →
      (evaluate L p cid now w).1 = (evaluate L p cid now w2).1 ∧
      (evaluate L p cid now w).2 cid = (evaluate L p cid now w2).2 cid) := by
  constructor
  · intro L p cid now w c hc
    by_cases hhp : honeypotTriggered p.hp
    · simp [evaluate, hhp]
    · simp only [Bool.not_eq_true] at hhp
      by_cases hlen : L ≤ ((prune now (w cid)).length : Int)
      · rw [evaluate_limited_eq L p cid now w hhp hlen]
        exact setTimes_other w cid c _ hc
      · rw [evaluate_accepted_eq L p cid now w hhp hlen]
        exact setTimes_other w cid c _ hc
  · intro L p cid now w w2 heq
    by_cases hhp : honeypotTriggered p.hp
    · refine ⟨by simp [evaluate, hhp], by simp [evaluate, hhp, heq]⟩
    · simp only [Bool.not_eq_true] at hhp
      have hpr : prune now (w cid) = prune now (w2 cid) := by rw [heq]
      by_cases hlen : L ≤ ((prune now (w cid)).length : Int)
      · have hlen2 : L ≤ ((prune now (w2 cid)).length : Int) := by
          rw [← hpr]
          exact hlen
        rw [evaluate_limited_eq L p cid now w hhp hlen,
          evaluate_limited_eq L p cid now w2 hhp hlen2]
        refine ⟨rfl, ?_⟩
        dsimp only
        rw [setTimes_same, setTimes_same, hpr]
      · have hlen2 : ¬ L ≤ ((prune now (w2 cid)).length : Int) := by
          rw [← hpr]
          exact hlen
        rw [evaluate_accepted_eq L p cid now w hhp hlen,
          evaluate_accepted_eq L p cid now w2 hhp hlen2]
        refine ⟨rfl, ?_⟩
        dsimp only
        rw [setTimes_same, setTimes_same, hpr]

/-- Witness for C6: evaluating client `"A"` leaves the entry of client
`"B"` untouched, and a full window of a stranger does not change the
outcome of `"B"`. -/
theorem client_independence_witness :
    (evaluate 10 emptySub "A" 0 (setTimes emptyWindow "B" [5])).2 "B" =
      setTimes emptyWindow "B" [5] "B" ∧
    (evaluate 1 emptySub "B" 0 (setTimes emptyWindow "A" [-1, -2])).1 =
      (evaluate 1 emptySub "B" 0 emptyWindow).1 :=
  ⟨client_independence.1 10 emptySub "A" 0 (setTimes emptyWindow "B" [5])
      "B" (by decide),
   (client_independence.2 1 emptySub "B" 0
      (setTimes emptyWindow "A" [-1, -2]) emptyWindow (by decide)).1⟩

/-- Claim C7: rate-window invariant — the empty mapping satisfies the
per-client length bound `RATE_LIMIT_PER_MIN`; every evaluation preserves
it (given `RATE_LIMIT_PER_MIN ≥ 1`); and immediately after an evaluation
that reaches the rate-limit step, every timestamp stored for that client
is ≥ now - 60. -/
theorem window_invariant (L : Int) (hL : 1 ≤ L) :
    (∀ c, ((emptyWindow c).length : Int) ≤ L) ∧
    (∀ (p : ContactSubmission) (cid : String) (now : Int)
        (w : RateWindow),
      (∀ c, ((w c).length : Int) ≤ L) →
      ∀ c, (((evaluate L p cid now w).2 c).length : Int) ≤ L) ∧
    (∀ (p : ContactSubmission) (cid : String) (now : Int)
        (w : RateWindow),
      honeypotTriggered p.hp = false →
      ∀ t ∈ (evaluate L p cid now w).2 cid, now - 60 ≤ t) := by
  refine ⟨fun c => by simp [emptyWindow]; omega, ?_, ?_⟩
  · intro p cid now w hinv c
    by_cases hhp : honeypotTriggered p.hp
    · simpa [evaluate, hhp] using hinv c
    · simp only [Bool.not_eq_true] at hhp
      have hple : ((prune now (w cid)).length : Int) ≤
          ((w cid).length : Int) := by
        exact_mod_cast Int.ofNat_le.mpr (List.length_filter_le _ _)
      by_cases hlen : L ≤ ((prune now (w cid)).length : Int)
      · rw [evaluate_limited_eq L p cid now w hhp hlen]
        dsimp only
        by_cases hc : c = cid
        · rw [hc, setTimes_same]
          exact le_trans hple (hinv cid)
        · rw [setTimes_other w cid c _ hc]
          exact hinv c
      · rw [evaluate_accepted_eq L p cid now w hhp hlen]
        dsimp only
        by_cases hc : c = cid
        · rw [hc, setTimes_same]
          simp only [List.length_append, List.length_singleton]
          push_cast
          omega
        · rw [setTimes_other w cid c _ hc]
          exact hinv c
  · intro p cid now w hhp t ht
    by_cases hlen : L ≤ ((prune now (w cid)).length : Int)
    · rw [evaluate_limited_eq L p cid now w hhp hlen] at ht
      dsimp only at ht
      rw [setTimes_same] at ht
      have := List.of_mem_filter ht
      simpa using this
    · rw [evaluate_accepted_eq L p cid now w hhp hlen] at ht
      dsimp only at ht
      rw [setTimes_same] at ht
      rcases List.mem_append.mp ht with ht2 | ht2
      · have := List.of_mem_filter ht2
        simpa using this
      · rw [List.mem_singleton.mp ht2]
        omega

/-- Witness for C7: the bound holds for the empty mapping, is preserved
by a concrete evaluation, and the freshly stored timestamps are inside
the window. -/
theorem window_invariant_witness :
    ((emptyWindow "c").length : Int) ≤ 10 ∧
    (((evaluate 10 emptySub "c" 0 emptyWindow).2 "d").length : Int) ≤ 10 ∧
    (100 : Int) - 60 ≤ 100 :=
  ⟨(window_invariant 10 (by decide)).1 "c",
   (window_invariant 10 (by decide)).2.1 emptySub "c" 0 emptyWindow
     (window_invariant 10 (by decide)).1 "d",
   (window_invariant 10 (by decide)).2.2 emptySub "c" 100 emptyWindow rfl
     100 (by decide)⟩

/-- Counterexample to C8 as stated: with one stored timestamp t = 0 for
client `"c"` and `now = 60`, `now` is at least 60 seconds greater than
every stored timestamp (60 = 0 + 60), yet with `RATE_LIMIT_PER_MIN = 1`
the evaluation is `RateLimited` while a client with no history is
`Accepted` — the boundary timestamp `t = now - 60` survives the prune,
so the behaviours differ. -/
theorem stale_window_boundary_counterexample :
    (∀ t ∈ setTimes emptyWindow "c" [0] "c", t + 60 ≤ 60) ∧
    (evaluate 1 emptySub "c" 60 (setTimes emptyWindow "c" [0])).1 =
      Outcome.RateLimited ∧
    (evaluate 1 emptySub "c" 60 emptyWindow).1 = Outcome.Accepted := by
  decide

/-- Claim C8 amended: for a submission that passes the honeypot check,
if `now` is MORE than 60 seconds greater than every timestamp in the
prior history of the client (so that the prune empties the window),
evaluation produces the same outcome and the same resulting state as for
a client with no history at all. -/
theorem full_prune_like_fresh (L : Int) (p : ContactSubmission)
    (cid : String) (now : Int) (w : RateWindow)
    (hhp : honeypotTriggered p.hp = false)
    (hold : ∀ t ∈ w cid, t + 60 < now) :
    evaluate L p cid now w = evaluate L p cid now (setTimes w cid []) := by
  have hpr : prune now (w cid) = [] := prune_eq_nil now (w cid) hold
  have hpr2 : prune now (setTimes w cid [] cid) = [] := by
    rw [setTimes_same]
    rfl
  by_cases hlen : L ≤ ((prune now (w cid)).length : Int)
  · have hlen2 : L ≤ ((prune now (setTimes w cid [] cid)).length : Int) := by
      rw [hpr2, hpr] at *
      exact hlen
    rw [evaluate_limited_eq L p cid now w hhp hlen,
      evaluate_limited_eq L p cid now (setTimes w cid []) hhp hlen2,
      hpr, hpr2, setTimes_setTimes]
  · have hlen2 : ¬ L ≤ ((prune now (setTimes w cid [] cid)).length :
        Int) := by
      rw [hpr2, hpr] at *
      exact hlen
    rw [evaluate_accepted_eq L p cid now w hhp hlen,
      evaluate_accepted_eq L p cid now (setTimes w cid []) hhp hlen2,
      hpr, hpr2, setTimes_setTimes]

/-- Witness for the amended C8: `now = 61` fully prunes the history
`[0]`, and the evaluation agrees with the no-history client. -/
theorem full_prune_like_fresh_witness :
    evaluate 1 emptySub "c" 61 (setTimes emptyWindow "c" [0]) =
      evaluate 1 emptySub "c" 61
        (setTimes (setTimes emptyWindow "c" [0]) "c" []) :=
  full_prune_like_fresh 1 emptySub "c" 61 (setTimes emptyWindow "c" [0])
    rfl (by decide)

/-- Counterexample to the indistinguishability part of C5 as stated: with the
persistence collaborator returning id "abc", the honeypot-dropped
response body is `{"ok": true}` while the genuinely accepted response
body is `{"ok": true, "id": "abc"}` — the two responses are not
identical, so a client can detect the honeypot by the missing "id"
field. -/
theorem response_shape_counterexample :
    (evaluate 10 hpSub "c" 0 emptyWindow).1 = Outcome.Dropped ∧
    (evaluate 10 emptySub "c" 0 emptyWindow).1 = Outcome.Accepted ∧
    (submit_contact 10 (fun _ => Except.ok "abc") hpSub "c" 0
        emptyWindow).response ≠
      (submit_contact 10 (fun _ => Except.ok "abc") emptySub "c" 0
        emptyWindow).response := by
  decide

/-- Claim C5 amended: per gate outcome the handler returns HTTP 200 with
body `{"ok": true}` on `Dropped`, HTTP 200 with body
`{"ok": true, "id": id}` on `Accepted` with successful persistence —
both success responses with "ok" true, though distinguishable by the
"id" field — and HTTP 200, never a non-200 status, with body
`{"ok": false, "reason": "rate_limited"}` on `RateLimited`. -/
theorem handler_responses (L : Int) (cr : Contact → Except String String)
    (p : ContactSubmission) (cid : String) (now : Int) (w : RateWindow) :
    ((evaluate L p cid now w).1 = Outcome.Dropped →
      (submit_contact L cr p cid now w).response =
        { status := 200, body := [("ok", JVal.jbool true)] }) ∧
    (∀ i, (evaluate L p cid now w).1 = Outcome.Accepted →
      cr (toContact p) = Except.ok i →
      (submit_contact L cr p cid now w).response =
        { status := 200,
          body := [("ok", JVal.jbool true), ("id", JVal.jstr i)] }) ∧
    ((evaluate L p cid now w).1 = Outcome.RateLimited →
      (submit_contact L cr p cid now w).response =
        { status := 200,
          body := [("ok", JVal.jbool false),
                   ("reason", JVal.jstr "rate_limited")] }) := by
  by_cases hhp : honeypotTriggered p.hp
  · refine ⟨fun _ => by simp [submit_contact, hhp], fun i hacc _ => ?_,
      fun hlim => ?_⟩
    · simp [evaluate, hhp] at hacc
    · simp [evaluate, hhp] at hlim
  · simp only [Bool.not_eq_true] at hhp
    by_cases hlen : L ≤ ((prune now (w cid)).length : Int)
    · have heval := evaluate_limited_eq L p cid now w hhp hlen
      refine ⟨fun hdrop => ?_, fun i hacc _ => ?_, fun _ => ?_⟩
      · rw [heval] at hdrop
        simp at hdrop
      · rw [heval] at hacc
        simp at hacc
      · simp [submit_contact, hhp, is_rate_limited_eq, hlen]
    · have heval := evaluate_accepted_eq L p cid now w hhp hlen
      refine ⟨fun hdrop => ?_, fun i _ hcr => ?_, fun hlim => ?_⟩
      · rw [heval] at hdrop
        simp at hdrop
      · simp [submit_contact, hhp, is_rate_limited_eq, hlen, hcr]
      · rw [heval] at hlim
        simp at hlim

/-- Witness for the amended C5 at concrete inputs: a dropped, an
accepted-and-stored, and a rate-limited submission. -/
theorem handler_responses_witness :
    (submit_contact 10 (fun _ => Except.ok "abc") hpSub "c" 0
        emptyWindow).response =
      { status := 200, body := [("ok", JVal.jbool true)] } ∧
    (submit_contact 10 (fun _ => Except.ok "abc") emptySub "c" 0
        emptyWindow).response =
      { status := 200,
        body := [("ok", JVal.jbool true), ("id", JVal.jstr "abc")] } ∧
    (submit_contact 0 (fun _ => Except.ok "abc") emptySub "c" 0
        emptyWindow).response =
      { status := 200,
        body := [("ok", JVal.jbool false),
                 ("reason", JVal.jstr "rate_limited")] } :=
  ⟨(handler_responses 10 (fun _ => Except.ok "abc") hpSub "c" 0
      emptyWindow).1 (by decide),
   (handler_responses 10 (fun _ => Except.ok "abc") emptySub "c" 0
      emptyWindow).2.1 "abc" (by decide) rfl,
   (handler_responses 0 (fun _ => Except.ok "abc") emptySub "c" 0
      emptyWindow).2.2 (by decide)⟩

end ContactGate
